import Mathlib

set_option maxRecDepth 8192

/-!
Verification of the RAG query pipeline of `rag_application.ipynb`
(Chat-with-Documents-using-Llama-3.2).

The notebook wires external libraries (Qdrant, LlamaIndex, HuggingFace,
Ollama) into a linear pipeline: index documents, then for each query run
Retriever → Reranker → Prompt Builder → Answer Generator.  The notebook
itself contributes only configuration (the prompt template, the model
identifiers, `similarity_top_k = 10`, `top_n = 3`, the collection name)
and the wiring; the pipeline internals live in the external libraries and
are modelled here from the specification, as marked on each definition.
External neural models (embedder, cross-encoder, LLM) are opaque function
parameters.
-/

namespace RagApp

/-- A chunk of a document: its text plus metadata inherited from the
document (file name, page label, and so on), modelled as key/value pairs. -/
structure Chunk where
  text : String
  metadata : List (String × String)
deriving DecidableEq, Repr

/-- An embedding is a fixed-length numeric vector.  Rationals stand in for
the floating-point coordinates. -/
abbrev Embedding := List ℚ

/-- A (chunk, relevance score) pair, produced by the Retriever and
re-scored by the Reranker. -/
structure ScoredCandidate where
  chunk : Chunk
  score : ℚ
deriving DecidableEq, Repr

/-- The final answer text plus the ordered evidence list. -/
structure Response where
  answer : String
  evidence : List ScoredCandidate
deriving DecidableEq, Repr

/-- The vector store: named collections, each an insertion-ordered list of
(embedding, chunk) entries.  Modelled from the spec: the Qdrant store is
an external collaborator with `upsert` and `query` operations. -/
abbrev Store := List (String × List (Embedding × Chunk))

/-- Dot product of two vectors (missing coordinates count as zero). -/
def dotQ (a b : List ℚ) : ℚ := (List.zipWith (fun x y => x * y) a b).sum

/-- Signed-square similarity key of vector `v` against query `q`:
`(q·v)·|q·v| / (v·v)`.  For nonzero vectors this is a strictly monotone
transform of the cosine similarity `(q·v)/(‖q‖·‖v‖)` (the common positive
factor `‖q‖` drops out and `x ↦ x·|x|` is strictly monotone), so sorting
by `simKey` is sorting by cosine similarity, exactly, over ℚ — see
`simKey_le_iff_cos_le` below. -/
def simKey (q v : Embedding) : ℚ := dotQ q v * |dotQ q v| / dotQ v v

/-- Comparator on insertion-indexed store entries: strictly greater
similarity first, ties broken by smaller insertion index. -/
def retLe (q : Embedding) (a b : Nat × Embedding × Chunk) : Bool :=
  decide (simKey q b.2.1 < simKey q a.2.1 ∨
    (simKey q a.2.1 = simKey q b.2.1 ∧ a.1 ≤ b.1))

/-- Stable selection of the first `n` elements under the total preorder
`le`: sort (stably) and truncate. -/
def sortTopBy (le : α → α → Bool) (n : Nat) (l : List α) : List α :=
  (l.mergeSort le).take n

/-- Modelled from the spec: the Retriever, on insertion-indexed entries.
Looks up the collection (failing with `none` if it does not exist), sorts
its entries by decreasing similarity to the query embedding with ties
broken by insertion order, and truncates to the requested count. -/
def retrieveIdx (store : Store) (coll : String) (q : Embedding) (K : Nat) :
    Option (List (Nat × Embedding × Chunk)) :=
  match List.lookup coll store with
  | none => none
  | some entries => some (sortTopBy (retLe q) K entries.enum)

/-- Modelled from the spec: the Retriever as seen by the pipeline,
returning scored candidates (chunk plus similarity score). -/
def retrieve (store : Store) (coll : String) (q : Embedding) (K : Nat) :
    Option (List ScoredCandidate) :=
  (retrieveIdx store coll q K).map
    (List.map (fun e => { chunk := e.2.2, score := simKey q e.2.1 }))

/-! ### Configuration taken verbatim from the notebook -/

/-- The Qdrant collection name from the notebook. -/
def collection_name : String := "chat_with_docs"

/-- Global settings of the notebook: `Settings.embed_model` is the
HuggingFace embedder and `Settings.llm` the Ollama model with its request
timeout in seconds. -/
structure GlobalSettings where
  embed_model : String
  llm_model : String
  llm_timeout : Nat
deriving DecidableEq, Repr

/-- The notebook's global settings, from the `Settings.embed_model` and
`Settings.llm` assignments. -/
def settings : GlobalSettings :=
  { embed_model := "BAAI/bge-large-en-v1.5"
    llm_model := "llama3.2:1b"
    llm_timeout := 120 }

/-- The embedding model used by `create_index`: LlamaIndex reads the
single global `Settings.embed_model`. -/
def indexEmbedModel : String := settings.embed_model

/-- The embedding model used to embed the query: the query engine reads
the same global `Settings.embed_model`. -/
def queryEmbedModel : String := settings.embed_model

/-- `similarity_top_k = 10` from `index.as_query_engine`. -/
def similarity_top_k : Nat := 10

/-- `top_n = 3` from `SentenceTransformerRerank`. -/
def top_n : Nat := 3

/-- The prompt template string, verbatim from the notebook cell that
defines `template` (apostrophes and braces written as escapes). -/
def template : String := "\n            Context information is below:\n              ---------------------\n              \x7bcontext_str\x7d\n              ---------------------\n              Given the context information above I want you to think\n              step by step to answer the query in a crisp manner,\n              incase you don\x27t know the answer say \x27I don\x27t know!\x27\n            \n              Query: \x7bquery_str\x7d\n        \n              Answer:\n"

/-! ### Prompt template parsing and filling -/

/-- A parsed template segment: either literal text or a named slot. -/
inductive Seg where
  | lit : String → Seg
  | slot : String → Seg
deriving DecidableEq, Repr

/-- One-pass template scanner: `litAcc` collects the current literal run
(reversed) and the third argument, when present, collects the name of the
slot currently being read (reversed). -/
def parseAux : List Char → List Char → Option (List Char) → List Seg
  | [], litAcc, none =>
    if litAcc.isEmpty then [] else [Seg.lit (String.mk litAcc.reverse)]
  | [], litAcc, some slotAcc =>
    [Seg.lit (String.mk (litAcc.reverse ++ '\x7b' :: slotAcc.reverse))]
  | c :: cs, litAcc, none =>
    if c = '\x7b' then
      (if litAcc.isEmpty then [] else [Seg.lit (String.mk litAcc.reverse)]) ++
        parseAux cs [] (some [])
    else parseAux cs (c :: litAcc) none
  | c :: cs, litAcc, some slotAcc =>
    if c = '\x7d' then Seg.slot (String.mk slotAcc.reverse) :: parseAux cs litAcc none
    else parseAux cs litAcc (some (c :: slotAcc))

/-- The segments of a template string. -/
def templateSegs (t : String) : List Seg := parseAux t.toList [] none

/-- The named substitution slots of a template, in order of appearance
(LlamaIndex's `PromptTemplate.template_vars`). -/
def promptVars (t : String) : List String :=
  (templateSegs t).filterMap (fun s => match s with
    | Seg.slot n => some n
    | Seg.lit _ => none)

/-- Modelled from the spec: startup validation of the prompt template
(the Prompt Builder "fails if either slot is missing from the template
(configuration error, detected at startup)"); the slots that the response
synthesizer substitutes are `context_str` and `query_str`. -/
def checkTemplate (t : String) : Except String String :=
  if "context_str" ∈ promptVars t then
    if "query_str" ∈ promptVars t then Except.ok t
    else Except.error "template lacks the query_str slot"
  else Except.error "template lacks the context_str slot"

/-- Fill parsed segments: literals verbatim, `context_str` by the context
block, `query_str` by the query. -/
def fillSegs (segs : List Seg) (ctx qs : String) : String :=
  segs.foldr (fun s acc =>
    (match s with
     | Seg.lit l => l
     | Seg.slot n =>
       if n = "context_str" then ctx
       else if n = "query_str" then qs
       else "") ++ acc) ""

/-- Modelled from the spec: the context block concatenates the chunk
texts in the given order, separated by a fixed delimiter (LlamaIndex
joins retrieved node texts with a blank line). -/
def contextBlock (texts : List String) : String := String.intercalate "\n\n" texts

/-- Modelled from the spec: the Prompt Builder substitutes the context
block and the query into the fixed template. -/
def buildPrompt (texts : List String) (qs : String) : String :=
  fillSegs (templateSegs template) (contextBlock texts) qs

/-! ### Indexer, Reranker, Answer Generator, and the pipeline -/

/-- Modelled from the spec: the Indexer embeds each chunk's text with the
(single) embedding model and stores (embedding, chunk) pairs. -/
def indexDocs (embed : String → Embedding) (chunks : List Chunk) :
    List (Embedding × Chunk) :=
  chunks.map (fun c => (embed c.text, c))

/-- Modelled from the spec: the Reranker re-scores every candidate with
the cross-encoder `scorer`, sorts by descending new score (stably), and
truncates to the configured `topN`. -/
def rerank (scorer : String → String → ℚ) (topN : Nat) (qs : String)
    (cands : List ScoredCandidate) : List ScoredCandidate :=
  sortTopBy (fun a b => decide (b.score ≤ a.score)) topN
    (cands.map (fun c => { chunk := c.chunk, score := scorer qs c.chunk.text }))

/-- Modelled from the spec: the full query pipeline of
`query_engine.query` — Retriever → Reranker → Prompt Builder → Answer
Generator, with the generator returning the LLM text verbatim and the
reranked candidates threaded through as evidence. -/
def pipeline (store : Store) (coll : String) (embed : String → Embedding)
    (scorer : String → String → ℚ) (llm : String → String)
    (qs : String) : Option Response :=
  match retrieve store coll (embed qs) similarity_top_k with
  | none => none
  | some cands =>
    some { answer :=
             llm (buildPrompt ((rerank scorer top_n qs cands).map
               (fun c => c.chunk.text)) qs)
           evidence := rerank scorer top_n qs cands }

/-! ### Generic facts about `sortTopBy` -/

theorem sortTopBy_length (le : α → α → Bool) (n : Nat) (l : List α) :
    (sortTopBy le n l).length = min n l.length := by
  simp [sortTopBy]

theorem mem_of_mem_sortTopBy {le : α → α → Bool} {n : Nat} {l : List α}
    {x : α} (h : x ∈ sortTopBy le n l) : x ∈ l := by
  have := List.mem_of_mem_take h
  exact List.mem_mergeSort.mp this

theorem sortTopBy_pairwise {le : α → α → Bool} {n : Nat} {l : List α}
    (trans : ∀ a b c, le a b → le b c → le a c)
    (total : ∀ a b, le a b || le b a) :
    (sortTopBy le n l).Pairwise (fun a b => le a b) := by
  exact List.Pairwise.sublist (List.take_sublist n _)
    (List.sorted_mergeSort trans total l)

theorem snd_mem_of_mem_enumFrom {α : Type} {l : List α} {n : Nat}
    {p : Nat × α} (h : p ∈ l.enumFrom n) : p.2 ∈ l := by
  induction l generalizing n with
  | nil => simp [List.enumFrom] at h
  | cons x xs ih =>
    rw [List.enumFrom_cons] at h
    rcases List.mem_cons.mp h with h | h
    · simp [h]
    · exact List.mem_cons_of_mem _ (ih h)

theorem snd_mem_of_mem_enum {α : Type} {l : List α} {p : Nat × α}
    (h : p ∈ l.enum) : p.2 ∈ l :=
  snd_mem_of_mem_enumFrom h

/-! ### The signed-square key orders exactly as cosine similarity -/

theorem mulAbs_strictMono : StrictMono (fun z : ℝ => z * |z|) := by
  intro a b hab
  simp only []
  rcases le_or_lt 0 a with ha | ha
  · have hb : 0 < b := lt_of_le_of_lt ha hab
    rw [abs_of_nonneg ha, abs_of_pos hb]
    nlinarith
  · rcases le_or_lt 0 b with hb | hb
    · have h1 : a * |a| < 0 := by rw [abs_of_neg ha]; nlinarith
      have h2 : 0 ≤ b * |b| := by rw [abs_of_nonneg hb]; nlinarith
      linarith
    · rw [abs_of_neg ha, abs_of_neg hb]; nlinarith

theorem mulAbs_le_iff {x y : ℝ} : x * |x| ≤ y * |y| ↔ x ≤ y :=
  mulAbs_strictMono.le_iff_le

theorem div_sqrt_mulAbs (d n : ℝ) (hn : 0 < n) :
    (d / Real.sqrt n) * |d / Real.sqrt n| = d * |d| / n := by
  have hs : 0 < Real.sqrt n := Real.sqrt_pos.mpr hn
  rw [abs_div, abs_of_pos hs, div_mul_div_comm, Real.mul_self_sqrt hn.le]

/-- For vectors of positive squared norm, comparing `simKey`s over ℚ is
the same as comparing the real cosine similarities. -/
theorem simKey_le_iff_cos_le (q a b : Embedding)
    (hq : 0 < dotQ q q) (ha : 0 < dotQ a a) (hb : 0 < dotQ b b) :
    (simKey q a ≤ simKey q b ↔
      (dotQ q a : ℝ) / (Real.sqrt (dotQ q q : ℝ) * Real.sqrt (dotQ a a : ℝ)) ≤
        (dotQ q b : ℝ) / (Real.sqrt (dotQ q q : ℝ) * Real.sqrt (dotQ b b : ℝ))) := by
  have hqR : (0 : ℝ) < (dotQ q q : ℝ) := by exact_mod_cast hq
  have haR : (0 : ℝ) < (dotQ a a : ℝ) := by exact_mod_cast ha
  have hbR : (0 : ℝ) < (dotQ b b : ℝ) := by exact_mod_cast hb
  have hsq : 0 < Real.sqrt (dotQ q q : ℝ) := Real.sqrt_pos.mpr hqR
  have ea : ((simKey q a : ℚ) : ℝ) =
      ((dotQ q a : ℝ) / Real.sqrt (dotQ a a : ℝ)) *
        |(dotQ q a : ℝ) / Real.sqrt (dotQ a a : ℝ)| := by
    rw [div_sqrt_mulAbs _ _ haR]
    unfold simKey
    push_cast
    ring
  have eb : ((simKey q b : ℚ) : ℝ) =
      ((dotQ q b : ℝ) / Real.sqrt (dotQ b b : ℝ)) *
        |(dotQ q b : ℝ) / Real.sqrt (dotQ b b : ℝ)| := by
    rw [div_sqrt_mulAbs _ _ hbR]
    unfold simKey
    push_cast
    ring
  have fa : (dotQ q a : ℝ) / (Real.sqrt (dotQ q q : ℝ) * Real.sqrt (dotQ a a : ℝ)) =
      ((dotQ q a : ℝ) / Real.sqrt (dotQ a a : ℝ)) / Real.sqrt (dotQ q q : ℝ) := by
    rw [div_div, mul_comm]
  have fb : (dotQ q b : ℝ) / (Real.sqrt (dotQ q q : ℝ) * Real.sqrt (dotQ b b : ℝ)) =
      ((dotQ q b : ℝ) / Real.sqrt (dotQ b b : ℝ)) / Real.sqrt (dotQ q q : ℝ) := by
    rw [div_div, mul_comm]
  rw [← Rat.cast_le (K := ℝ), ea, eb, mulAbs_le_iff, fa, fb, div_le_div_iff_of_pos_right hsq]

/-! ### The retrieval comparator is transitive and total -/

theorem retLe_trans (q : Embedding) :
    ∀ a b c, retLe q a b → retLe q b c → retLe q a c := by
  intro a b c hab hbc
  simp only [retLe, decide_eq_true_eq] at hab hbc ⊢
  rcases hab with h1 | ⟨h1, h1'⟩ <;> rcases hbc with h2 | ⟨h2, h2'⟩
  · exact Or.inl (lt_trans h2 h1)
  · left; rw [← h2]; exact h1
  · left; rw [h1]; exact h2
  · exact Or.inr ⟨h1.trans h2, le_trans h1' h2'⟩

theorem retLe_total (q : Embedding) :
    ∀ a b, retLe q a b || retLe q b a := by
  intro a b
  simp only [retLe, Bool.or_eq_true, decide_eq_true_eq]
  rcases lt_trichotomy (simKey q a.2.1) (simKey q b.2.1) with h | h | h
  · right; left; exact h
  · rcases Nat.le_total a.1 b.1 with hi | hi
    · left; right; exact ⟨h, hi⟩
    · right; right; exact ⟨h.symm, hi⟩
  · left; left; exact h

/-! ### Claim C1 -/

/-- Claim C1: for every collection holding M stored chunks and every query
embedding with requested count K, the Retriever returns exactly min(K, M)
chunks, each drawn from the stored set, ordered by decreasing cosine
similarity to the query embedding with ties broken by insertion order; it
fails if the collection does not exist. -/
theorem retriever_meets_contract (store : Store) (coll : String)
    (q : Embedding) (K : Nat) (entries : List (Embedding × Chunk)) :
    (List.lookup coll store = none → retrieve store coll q K = none) ∧
    (List.lookup coll store = some entries →
      0 < dotQ q q → (∀ p ∈ entries, 0 < dotQ p.1 p.1) →
      ∃ out, retrieveIdx store coll q K = some out ∧
        retrieve store coll q K =
          some (out.map (fun e => { chunk := e.2.2, score := simKey q e.2.1 })) ∧
        out.length = min K entries.length ∧
        (∀ p ∈ out, p ∈ entries.enum ∧ p.2 ∈ entries) ∧
        out.Pairwise (fun a b =>
          (dotQ q b.2.1 : ℝ) /
              (Real.sqrt (dotQ q q : ℝ) * Real.sqrt (dotQ b.2.1 b.2.1 : ℝ)) ≤
            (dotQ q a.2.1 : ℝ) /
              (Real.sqrt (dotQ q q : ℝ) * Real.sqrt (dotQ a.2.1 a.2.1 : ℝ)) ∧
          ((dotQ q a.2.1 : ℝ) /
              (Real.sqrt (dotQ q q : ℝ) * Real.sqrt (dotQ a.2.1 a.2.1 : ℝ)) =
            (dotQ q b.2.1 : ℝ) /
              (Real.sqrt (dotQ q q : ℝ) * Real.sqrt (dotQ b.2.1 b.2.1 : ℝ)) →
            a.1 ≤ b.1))) := by
  constructor
  · intro h
    simp [retrieve, retrieveIdx, h]
  · intro h hq hv
    refine ⟨sortTopBy (retLe q) K entries.enum, ?_, ?_, ?_, ?_, ?_⟩
    · simp [retrieveIdx, h]
    · simp [retrieve, retrieveIdx, h]
    · rw [sortTopBy_length, List.enum_length]
    · intro p hp
      have h1 : p ∈ entries.enum := mem_of_mem_sortTopBy hp
      exact ⟨h1, snd_mem_of_mem_enum h1⟩
    · have hpw : (sortTopBy (retLe q) K entries.enum).Pairwise
          (fun a b => retLe q a b) :=
        sortTopBy_pairwise (retLe_trans q) (retLe_total q)
      refine List.Pairwise.imp_of_mem ?_ hpw
      intro a b hamem hbmem hr
      have ha' : 0 < dotQ a.2.1 a.2.1 :=
        hv _ (snd_mem_of_mem_enum (mem_of_mem_sortTopBy hamem))
      have hb' : 0 < dotQ b.2.1 b.2.1 :=
        hv _ (snd_mem_of_mem_enum (mem_of_mem_sortTopBy hbmem))
      simp only [retLe, decide_eq_true_eq] at hr
      have bridge_ab := simKey_le_iff_cos_le q a.2.1 b.2.1 hq ha' hb'
      have bridge_ba := simKey_le_iff_cos_le q b.2.1 a.2.1 hq hb' ha'
      constructor
      · rcases hr with hlt | ⟨heq, _⟩
        · exact bridge_ba.mp hlt.le
        · exact bridge_ba.mp heq.ge
      · intro hceq
        rcases hr with hlt | ⟨heq, hidx⟩
        · exact absurd (bridge_ab.mpr hceq.le) hlt.not_le
        · exact hidx

/-- Witness for C1: a concrete two-entry store; lookup of a missing
collection fails, and retrieval of one result from `chat_with_docs`
satisfies the contract. -/
theorem retriever_meets_contract_witness :
    retrieve [("chat_with_docs",
        [([(1 : ℚ), 0], ⟨"alpha", []⟩), ([(0 : ℚ), 1], ⟨"beta", []⟩)])]
      "missing" [(1 : ℚ), 0] 1 = none ∧
    ∃ out, retrieveIdx [("chat_with_docs",
        [([(1 : ℚ), 0], ⟨"alpha", []⟩), ([(0 : ℚ), 1], ⟨"beta", []⟩)])]
        "chat_with_docs" [(1 : ℚ), 0] 1 = some out ∧
      retrieve [("chat_with_docs",
          [([(1 : ℚ), 0], ⟨"alpha", []⟩), ([(0 : ℚ), 1], ⟨"beta", []⟩)])]
          "chat_with_docs" [(1 : ℚ), 0] 1 =
        some (out.map (fun e =>
          { chunk := e.2.2, score := simKey [(1 : ℚ), 0] e.2.1 })) ∧
      out.length = min 1
        [([(1 : ℚ), 0], (⟨"alpha", []⟩ : Chunk)),
         ([(0 : ℚ), 1], ⟨"beta", []⟩)].length ∧
      (∀ p ∈ out, p ∈ [([(1 : ℚ), 0], (⟨"alpha", []⟩ : Chunk)),
          ([(0 : ℚ), 1], ⟨"beta", []⟩)].enum ∧
        p.2 ∈ [([(1 : ℚ), 0], (⟨"alpha", []⟩ : Chunk)),
          ([(0 : ℚ), 1], ⟨"beta", []⟩)]) ∧
      out.Pairwise (fun a b =>
        (dotQ [(1 : ℚ), 0] b.2.1 : ℝ) /
            (Real.sqrt (dotQ [(1 : ℚ), 0] [(1 : ℚ), 0] : ℝ) *
              Real.sqrt (dotQ b.2.1 b.2.1 : ℝ)) ≤
          (dotQ [(1 : ℚ), 0] a.2.1 : ℝ) /
            (Real.sqrt (dotQ [(1 : ℚ), 0] [(1 : ℚ), 0] : ℝ) *
              Real.sqrt (dotQ a.2.1 a.2.1 : ℝ)) ∧
        ((dotQ [(1 : ℚ), 0] a.2.1 : ℝ) /
            (Real.sqrt (dotQ [(1 : ℚ), 0] [(1 : ℚ), 0] : ℝ) *
              Real.sqrt (dotQ a.2.1 a.2.1 : ℝ)) =
          (dotQ [(1 : ℚ), 0] b.2.1 : ℝ) /
            (Real.sqrt (dotQ [(1 : ℚ), 0] [(1 : ℚ), 0] : ℝ) *
              Real.sqrt (dotQ b.2.1 b.2.1 : ℝ)) →
          a.1 ≤ b.1)) :=
  ⟨(retriever_meets_contract _ "missing" _ 1
      [([(1 : ℚ), 0], ⟨"alpha", []⟩), ([(0 : ℚ), 1], ⟨"beta", []⟩)]).1 rfl,
   (retriever_meets_contract _ "chat_with_docs" _ 1
      [([(1 : ℚ), 0], ⟨"alpha", []⟩), ([(0 : ℚ), 1], ⟨"beta", []⟩)]).2
     rfl (by norm_num [dotQ]) (by simp [dotQ])⟩

/-! ### Claim C2 -/

/-- Counterexample to C2 as stated: the template's slots are not named
`context` and `query`. -/
theorem template_slots_not_context_query :
    promptVars template ≠ ["context", "query"] := by
  decide

/-- Claim C2 (amended): the fixed template contains exactly two named
substitution slots, named `context_str` and `query_str`, and the
(spec-modelled) startup check accepts a template exactly when both slots
are present — so a missing slot is a startup failure, not a per-query
one. -/
theorem template_slots_and_startup_check :
    promptVars template = ["context_str", "query_str"] ∧
    checkTemplate template = Except.ok template ∧
    (∀ t, (∃ s, checkTemplate t = Except.ok s) ↔
      ("context_str" ∈ promptVars t ∧ "query_str" ∈ promptVars t)) := by
  refine ⟨by decide, by rfl, ?_⟩
  intro t
  constructor
  · rintro ⟨s, hs⟩
    by_cases h1 : "context_str" ∈ promptVars t
    · by_cases h2 : "query_str" ∈ promptVars t
      · exact ⟨h1, h2⟩
      · simp [checkTemplate, h1, h2] at hs
    · simp [checkTemplate, h1] at hs
  · rintro ⟨h1, h2⟩
    exact ⟨t, by simp [checkTemplate, h1, h2]⟩

/-- Witness for C2: the startup check rejects a template with no slots
and accepts the notebook's template. -/
theorem template_slots_and_startup_check_witness :
    ¬ ∃ s, checkTemplate "no slots at all" = Except.ok s :=
  fun h => by
    have h2 := (template_slots_and_startup_check.2.2 "no slots at all").mp h
    revert h2
    decide

/-! ### Claim C3 -/

/-- Claim C3: for every query text and candidate list, the Reranker's
output is a subset of the input candidate set (no chunk introduced), its
size is at most the input size and at most the configured top-N, and it
is sorted by descending reranker score. -/
theorem rerank_subset_bounded_sorted (scorer : String → String → ℚ)
    (topN : Nat) (qs : String) (cands : List ScoredCandidate) :
    (rerank scorer topN qs cands).length ≤ cands.length ∧
    (rerank scorer topN qs cands).length ≤ topN ∧
    (∀ c ∈ rerank scorer topN qs cands, ∃ c₀ ∈ cands, c.chunk = c₀.chunk) ∧
    (rerank scorer topN qs cands).Pairwise (fun a b => b.score ≤ a.score) := by
  have hlen : (rerank scorer topN qs cands).length = min topN cands.length := by
    rw [rerank, sortTopBy_length, List.length_map]
  refine ⟨?_, ?_, ?_, ?_⟩
  · rw [hlen]; exact Nat.min_le_right _ _
  · rw [hlen]; exact Nat.min_le_left _ _
  · intro c hc
    rcases List.mem_map.mp (mem_of_mem_sortTopBy hc) with ⟨c₀, hc₀, rfl⟩
    exact ⟨c₀, hc₀, rfl⟩
  · rw [rerank]
    refine List.Pairwise.imp ?_ (sortTopBy_pairwise ?_ ?_)
    · intro a b h
      exact of_decide_eq_true h
    · intro a b c hab hbc
      exact decide_eq_true (le_trans (of_decide_eq_true hbc) (of_decide_eq_true hab))
    · intro a b
      simp only [Bool.or_eq_true, decide_eq_true_eq]
      exact le_total b.score a.score

/-- Witness for C3: a concrete two-candidate rerank. -/
theorem rerank_subset_bounded_sorted_witness :
    (rerank (fun _ t => if t = "u" then 9 else 1) 3 "q"
        [⟨⟨"t", []⟩, 5⟩, ⟨⟨"u", []⟩, 4⟩]).length ≤
      ([⟨⟨"t", []⟩, 5⟩, ⟨⟨"u", []⟩, 4⟩] : List ScoredCandidate).length ∧
    (rerank (fun _ t => if t = "u" then 9 else 1) 3 "q"
        [⟨⟨"t", []⟩, 5⟩, ⟨⟨"u", []⟩, 4⟩]).length ≤ 3 ∧
    (∀ c ∈ rerank (fun _ t => if t = "u" then 9 else 1) 3 "q"
        [⟨⟨"t", []⟩, 5⟩, ⟨⟨"u", []⟩, 4⟩],
      ∃ c₀ ∈ ([⟨⟨"t", []⟩, 5⟩, ⟨⟨"u", []⟩, 4⟩] : List ScoredCandidate),
        c.chunk = c₀.chunk) ∧
    (rerank (fun _ t => if t = "u" then 9 else 1) 3 "q"
        [⟨⟨"t", []⟩, 5⟩, ⟨⟨"u", []⟩, 4⟩]).Pairwise
      (fun a b => b.score ≤ a.score) :=
  rerank_subset_bounded_sorted (fun _ t => if t = "u" then 9 else 1) 3 "q"
    [⟨⟨"t", []⟩, 5⟩, ⟨⟨"u", []⟩, 4⟩]

/-! ### Claim C7 -/

/-- Claim C7: reranking changes only each candidate's relevance score —
every output candidate's chunk has text and metadata identical to those
of some input candidate, and its score is the reranker model's score for
that chunk's text. -/
theorem rerank_preserves_chunk_content (scorer : String → String → ℚ)
    (topN : Nat) (qs : String) (cands : List ScoredCandidate) :
    ∀ c ∈ rerank scorer topN qs cands, ∃ c₀ ∈ cands,
      c.chunk.text = c₀.chunk.text ∧ c.chunk.metadata = c₀.chunk.metadata ∧
      c.score = scorer qs c₀.chunk.text := by
  intro c hc
  rcases List.mem_map.mp (mem_of_mem_sortTopBy hc) with ⟨c₀, hc₀, rfl⟩
  exact ⟨c₀, hc₀, rfl, rfl, rfl⟩

/-- Witness for C7: the single candidate is re-scored but its chunk is
untouched. -/
theorem rerank_preserves_chunk_content_witness :
    ∃ c₀ ∈ ([⟨⟨"t", [("k", "v")]⟩, 5⟩] : List ScoredCandidate),
      (⟨⟨"t", [("k", "v")]⟩, 2⟩ : ScoredCandidate).chunk.text = c₀.chunk.text ∧
      (⟨⟨"t", [("k", "v")]⟩, 2⟩ : ScoredCandidate).chunk.metadata =
        c₀.chunk.metadata ∧
      (⟨⟨"t", [("k", "v")]⟩, 2⟩ : ScoredCandidate).score =
        (fun _ _ => (2 : ℚ)) "q" c₀.chunk.text :=
  rerank_preserves_chunk_content (fun _ _ => (2 : ℚ)) 3 "q"
    [⟨⟨"t", [("k", "v")]⟩, 5⟩] ⟨⟨"t", [("k", "v")]⟩, 2⟩
    (by simp [rerank, sortTopBy])

/-! ### Claim C4 -/

theorem templateSegs_eq :
    templateSegs template =
      [Seg.lit "\n            Context information is below:\n              ---------------------\n              ",
       Seg.slot "context_str",
       Seg.lit "\n              ---------------------\n              Given the context information above I want you to think\n              step by step to answer the query in a crisp manner,\n              incase you don\x27t know the answer say \x27I don\x27t know!\x27\n            \n              Query: ",
       Seg.slot "query_str",
       Seg.lit "\n        \n              Answer:\n"] := by
  decide

theorem fillSegs_shape (a b c ctx qs : String) :
    fillSegs [Seg.lit a, Seg.slot "context_str", Seg.lit b,
      Seg.slot "query_str", Seg.lit c] ctx qs =
      a ++ (ctx ++ (b ++ (qs ++ (c ++ "")))) := by
  rfl

/-- Claim C4: for every ordered list of chunk texts and every query
string, the Prompt Builder's output contains the literal concatenation of
all provided chunk texts in the given order, separated by the fixed
delimiter, and the literal query string. -/
theorem prompt_contains_context_and_query (texts : List String) (qs : String) :
    ∃ a b c, buildPrompt texts qs =
      a ++ (String.intercalate "\n\n" texts ++ (b ++ (qs ++ c))) := by
  refine ⟨"\n            Context information is below:\n              ---------------------\n              ",
    "\n              ---------------------\n              Given the context information above I want you to think\n              step by step to answer the query in a crisp manner,\n              incase you don\x27t know the answer say \x27I don\x27t know!\x27\n            \n              Query: ",
    "\n        \n              Answer:\n" ++ "", ?_⟩
  rw [buildPrompt, templateSegs_eq, fillSegs_shape]
  rfl

/-! ### Pipeline unfolding helper -/

theorem pipeline_eq (store : Store) (coll : String)
    (embed : String → Embedding) (scorer : String → String → ℚ)
    (llm : String → String) (qs : String) (cands : List ScoredCandidate)
    (h : retrieve store coll (embed qs) similarity_top_k = some cands) :
    pipeline store coll embed scorer llm qs =
      some { answer := llm (buildPrompt ((rerank scorer top_n qs cands).map
               (fun c => c.chunk.text)) qs)
             evidence := rerank scorer top_n qs cands } := by
  simp [pipeline, h]

/-! ### Claim C5 -/

/-- Claim C5: with an empty collection, retrieval returns the empty list,
reranking returns the empty list, the context block is empty, and the
pipeline still invokes the generator and returns a response. -/
theorem pipeline_empty_collection (store : Store) (coll : String)
    (embed : String → Embedding) (scorer : String → String → ℚ)
    (llm : String → String) (qs : String)
    (h : List.lookup coll store = some []) :
    retrieve store coll (embed qs) similarity_top_k = some [] ∧
    rerank scorer top_n qs [] = [] ∧
    contextBlock [] = "" ∧
    pipeline store coll embed scorer llm qs =
      some { answer := llm (buildPrompt [] qs), evidence := [] } := by
  have hret : retrieve store coll (embed qs) similarity_top_k = some [] := by
    simp [retrieve, retrieveIdx, h, sortTopBy]
  have hrr : rerank scorer top_n qs ([] : List ScoredCandidate) = [] := by
    simp [rerank, sortTopBy]
  refine ⟨hret, hrr, rfl, ?_⟩
  rw [pipeline_eq store coll embed scorer llm qs [] hret, hrr]
  simp only [List.map_nil]

/-- Witness for C5: a store whose collection exists and is empty. -/
theorem pipeline_empty_collection_witness :
    retrieve [("chat_with_docs", [])] "chat_with_docs"
      ((fun _ => [(1 : ℚ)]) "hi") similarity_top_k = some [] ∧
    rerank (fun _ _ => (0 : ℚ)) top_n "hi" [] = [] ∧
    contextBlock [] = "" ∧
    pipeline [("chat_with_docs", [])] "chat_with_docs" (fun _ => [(1 : ℚ)])
      (fun _ _ => (0 : ℚ)) (fun _ => "a response") "hi" =
      some { answer := (fun _ => "a response") (buildPrompt [] "hi")
             evidence := [] } :=
  pipeline_empty_collection [("chat_with_docs", [])] "chat_with_docs"
    (fun _ => [(1 : ℚ)]) (fun _ _ => (0 : ℚ)) (fun _ => "a response") "hi" rfl

/-! ### Claim C6 -/

/-- Claim C6: the Answer Generator returns the language model's text
verbatim, and the Response's evidence list is exactly the reranked
candidate list, threaded through unchanged. -/
theorem generator_verbatim_evidence_unchanged (store : Store) (coll : String)
    (embed : String → Embedding) (scorer : String → String → ℚ)
    (llm : String → String) (qs : String) (cands : List ScoredCandidate)
    (h : retrieve store coll (embed qs) similarity_top_k = some cands) :
    pipeline store coll embed scorer llm qs =
      some { answer := llm (buildPrompt ((rerank scorer top_n qs cands).map
               (fun c => c.chunk.text)) qs)
             evidence := rerank scorer top_n qs cands } :=
  pipeline_eq store coll embed scorer llm qs cands h

/-- Witness for C6: concrete one-entry store. -/
theorem generator_verbatim_evidence_unchanged_witness :
    pipeline [("chat_with_docs", [([(1 : ℚ)], ⟨"hello", []⟩)])]
        "chat_with_docs" (fun _ => [(1 : ℚ)]) (fun _ _ => (7 : ℚ))
        (fun p => p ++ "!") "hi" =
      some { answer := (fun p => p ++ "!")
               (buildPrompt ((rerank (fun _ _ => (7 : ℚ)) top_n "hi"
                   [⟨⟨"hello", []⟩, simKey [(1 : ℚ)] [(1 : ℚ)]⟩]).map
                 (fun c => c.chunk.text)) "hi")
             evidence := rerank (fun _ _ => (7 : ℚ)) top_n "hi"
               [⟨⟨"hello", []⟩, simKey [(1 : ℚ)] [(1 : ℚ)]⟩] } :=
  generator_verbatim_evidence_unchanged
    [("chat_with_docs", [([(1 : ℚ)], ⟨"hello", []⟩)])] "chat_with_docs"
    (fun _ => [(1 : ℚ)]) (fun _ _ => (7 : ℚ)) (fun p => p ++ "!") "hi"
    [⟨⟨"hello", []⟩, simKey [(1 : ℚ)] [(1 : ℚ)]⟩]
    (by simp [retrieve, retrieveIdx, sortTopBy, similarity_top_k])

/-! ### Claim C10 -/

/-- Claim C10: the pipeline retrieves at most `similarity_top_k = 10`
candidates, the response's evidence holds at most `top_n = 3` chunks, and
`top_n ≤ similarity_top_k` as fixed constants of the configuration. -/
theorem pipeline_bounds (store : Store) (coll : String)
    (embed : String → Embedding) (scorer : String → String → ℚ)
    (llm : String → String) (qs : String)
    (entries : List (Embedding × Chunk))
    (h : List.lookup coll store = some entries) :
    ∃ cands r, retrieve store coll (embed qs) similarity_top_k = some cands ∧
      cands.length ≤ similarity_top_k ∧
      pipeline store coll embed scorer llm qs = some r ∧
      r.evidence.length ≤ top_n ∧
      top_n ≤ similarity_top_k := by
  have hret : retrieve store coll (embed qs) similarity_top_k =
      some ((sortTopBy (retLe (embed qs)) similarity_top_k entries.enum).map
        (fun e => { chunk := e.2.2, score := simKey (embed qs) e.2.1 })) := by
    simp [retrieve, retrieveIdx, h]
  refine ⟨_, _, hret, ?_, pipeline_eq store coll embed scorer llm qs _ hret,
    ?_, by norm_num [top_n, similarity_top_k]⟩
  · rw [List.length_map, sortTopBy_length]
    exact Nat.min_le_left _ _
  · show (rerank scorer top_n qs _).length ≤ top_n
    rw [rerank, sortTopBy_length, List.length_map]
    exact Nat.min_le_left _ _

/-- Witness for C10: concrete one-entry store. -/
theorem pipeline_bounds_witness :
    ∃ cands r, retrieve [("chat_with_docs", [([(1 : ℚ)], ⟨"hello", []⟩)])]
        "chat_with_docs" ((fun _ => [(1 : ℚ)]) "hi") similarity_top_k =
        some cands ∧
      cands.length ≤ similarity_top_k ∧
      pipeline [("chat_with_docs", [([(1 : ℚ)], ⟨"hello", []⟩)])]
        "chat_with_docs" (fun _ => [(1 : ℚ)]) (fun _ _ => (7 : ℚ))
        (fun p => p ++ "!") "hi" = some r ∧
      r.evidence.length ≤ top_n ∧
      top_n ≤ similarity_top_k :=
  pipeline_bounds [("chat_with_docs", [([(1 : ℚ)], ⟨"hello", []⟩)])]
    "chat_with_docs" (fun _ => [(1 : ℚ)]) (fun _ _ => (7 : ℚ))
    (fun p => p ++ "!") "hi" [([(1 : ℚ)], ⟨"hello", []⟩)] rfl

/-! ### Claim C8 -/

/-- Claim C8: index-time and query-time embeddings use the same embedding
model identifier (the single global `Settings.embed_model`), and with one
embedding function of fixed dimensionality every stored vector and the
query vector share that dimensionality. -/
theorem same_embed_model_and_dimension :
    indexEmbedModel = queryEmbedModel ∧
    indexEmbedModel = "BAAI/bge-large-en-v1.5" ∧
    (∀ (embed : String → Embedding) (d : Nat) (chunks : List Chunk)
      (qs : String),
      (∀ s, (embed s).length = d) →
      (∀ p ∈ indexDocs embed chunks, p.1.length = d) ∧
      (embed qs).length = d) := by
  refine ⟨rfl, rfl, ?_⟩
  intro embed d chunks qs hd
  constructor
  · intro p hp
    rcases List.mem_map.mp hp with ⟨c, hc, rfl⟩
    exact hd c.text
  · exact hd qs

/-- Witness for C8: a two-dimensional embedder. -/
theorem same_embed_model_and_dimension_witness :
    (∀ p ∈ indexDocs (fun _ => [(0 : ℚ), 0]) [⟨"t", []⟩], p.1.length = 2) ∧
    ((fun _ => [(0 : ℚ), 0]) "qq").length = 2 :=
  same_embed_model_and_dimension.2.2 (fun _ => [(0 : ℚ), 0]) 2 [⟨"t", []⟩]
    "qq" (fun _ => rfl)

end RagApp
